import Mathlib

/-!
Verification development for the data-quality validation pipeline in
`tech_test_qa_chloe.py` (tables `users` and `trades`, validated with
Great Expectations).

The script under `src/` only declares expectations and wires checkpoints;
the expectation-evaluation engine itself lives in the external
Great Expectations library and is therefore modelled here from the
specification (per-kind semantics of spec section 4.1, suite running of
section 4.3, checkpoint orchestration of section 4.4).  The reference-set
extraction of lines 69-70 of the script (`head(fetch_all=True)[col]
.drop_duplicates().tolist()`) is embedded directly, with the pandas
`drop_duplicates` keep-first semantics (which keeps a null once; it does
not filter nulls out).
-/

namespace TechTestQA

/-- Cell values of a batch: SQL null, text, or integer (integers also stand
for the timestamp columns, which are totally ordered). -/
inductive Value where
  | null : Value
  | str  : String → Value
  | int  : Int → Value
deriving DecidableEq

/-- A row maps column names to values; a column absent from the association
list reads as null (the spec's batches are rectangular, so every declared
column is present with a value or null). -/
abbrev Row := List (String × Value)

/-- A batch is a snapshot of a table's rows. -/
abbrev Batch := List Row

/-- Value of column `c` in row `r`; null when the column is absent. -/
def getCol (r : Row) (c : String) : Value :=
  match r.find? (fun p => p.1 == c) with
  | some p => p.2
  | none => Value.null

def Value.isNull : Value → Bool
  | .null => true
  | _ => false

def Value.asString : Value → Option String
  | .str s => some s
  | _ => none

def Value.asInt : Value → Option Int
  | .int n => some n
  | _ => none

/-- A character class: a union of inclusive character ranges (a single
literal is the range from itself to itself). -/
abbrev CharClass := List (Char × Char)

/-- Membership of a character in a character class. -/
def classMem (cls : CharClass) (c : Char) : Bool :=
  cls.any (fun p => decide (p.1 ≤ c) && decide (c ≤ p.2))

/-- Parse the items of a regex character class up to the closing bracket,
returning the parsed ranges and the remaining input. -/
def parseItems : List Char → Option (CharClass × List Char)
  | [] => none
  | ']' :: rest => some ([], rest)
  | a :: '-' :: b :: rest =>
      match parseItems rest with
      | some (is, r) => some ((a, b) :: is, r)
      | none => none
  | a :: rest =>
      match parseItems rest with
      | some (is, r) => some ((a, a) :: is, r)
      | none => none

/-- Parse an anchored one-or-more character-class pattern, the shape
`^[CLASS]+$` used by every regex in the script.  Any other string is a
malformed pattern (a configuration fault in the spec's taxonomy). -/
def parseFullPattern (s : String) : Option CharClass :=
  match s.data with
  | '^' :: '[' :: rest =>
      match parseItems rest with
      | some (cls, ['+', '$']) => some cls
      | _ => none
  | _ => none

/-- Anchored full-match semantics of `^[cls]+$`: the whole string must be a
nonempty run of characters of the class (not merely contain one). -/
def fullMatch (cls : CharClass) (s : String) : Bool :=
  !s.data.isEmpty && s.data.all (classMem cls)

/-- Modelled from the spec: the Expectation data model of spec section 3
(the tagged-variant encoding of section 9); the concrete expectation kinds
used by the script, whose engine-side definitions are in the external
Great Expectations library, not under src/. -/
inductive Expectation where
  | notNull (column : String)
  | rowCountBetween (lo : Nat) (hi : Option Nat)
  | matchesRegex (column : String) (pattern : String)
  | inSet (column : String) (allowed : List Value)
  | between (column : String) (lo : Int) (hi : Option Int)
  | columnGreaterThan (colA colB : String)
deriving DecidableEq

/-- Result of evaluating one expectation (spec section 3). -/
structure ExpectationResult where
  success : Bool
  evaluated_count : Nat
  violation_count : Nat
deriving DecidableEq

/-- Outcome of one evaluation: a result, or an evaluator fault for a
malformed parameter (spec section 4.1 failure semantics). -/
inductive EvalOutcome where
  | ok (r : ExpectationResult)
  | fault
deriving DecidableEq

/-- Build a result; success holds exactly when there are no violations. -/
def mkResult (evaluated violations : Nat) : ExpectationResult :=
  { success := violations == 0
    evaluated_count := evaluated
    violation_count := violations }

/-- Modelled from the spec: NotNull row predicate (section 4.1) — violation
if the value is null. -/
def notNullViolation (v : Value) : Bool := v.isNull

/-- Modelled from the spec: MatchesRegex row predicate (section 4.1) —
violation if a non-null text value does not fully match the pattern; null
values are not violations under this rule. -/
def regexViolation (cls : CharClass) (v : Value) : Bool :=
  match v.asString with
  | some s => !fullMatch cls s
  | none => false

/-- Modelled from the spec: InSet row predicate (section 4.1) — violation
if the value is not a member of the allowed set, by exact (case-sensitive)
equality; null is a violation whenever the set does not contain null. -/
def inSetViolation (allowed : List Value) (v : Value) : Bool :=
  !(allowed.contains v)

/-- Modelled from the spec: Between row predicate (section 4.1) — violation
if a non-null numeric value is below the minimum, or above a bounded
maximum; bounds are inclusive; nulls are not violations under this rule. -/
def betweenViolation (lo : Int) (hi : Option Int) (v : Value) : Bool :=
  match v.asInt with
  | some n =>
      decide (n < lo) ||
      (match hi with
       | some h => decide (h < n)
       | none => false)
  | none => false

/-- Modelled from the spec: ColumnGreaterThan row predicate (section 4.1) —
violation iff NOT (a > b); a null (or non-numeric) value on either side is
a violation, since the strict comparison requires both present. -/
def pairGreaterViolation (va vb : Value) : Bool :=
  match va.asInt, vb.asInt with
  | some a, some b => decide (a ≤ b)
  | _, _ => true

/-- Modelled from the spec: the Evaluator (section 4.1), absent from src/ —
`evaluate(expectation, batch)`, a pure function producing one result per
expectation; a malformed regex parameter is an evaluator fault. -/
def evaluate (e : Expectation) (batch : Batch) : EvalOutcome :=
  match e with
  | .notNull c =>
      .ok (mkResult batch.length
        (batch.countP (fun r => notNullViolation (getCol r c))))
  | .rowCountBetween lo hi =>
      let n := batch.length
      let bad := decide (n < lo) ||
        (match hi with
         | some h => decide (h < n)
         | none => false)
      .ok (mkResult 1 (if bad then 1 else 0))
  | .matchesRegex c pat =>
      match parseFullPattern pat with
      | some cls =>
          .ok (mkResult batch.length
            (batch.countP (fun r => regexViolation cls (getCol r c))))
      | none => .fault
  | .inSet c allowed =>
      .ok (mkResult batch.length
        (batch.countP (fun r => inSetViolation allowed (getCol r c))))
  | .between c lo hi =>
      .ok (mkResult batch.length
        (batch.countP (fun r => betweenViolation lo hi (getCol r c))))
  | .columnGreaterThan a b =>
      .ok (mkResult batch.length
        (batch.countP (fun r => pairGreaterViolation (getCol r a) (getCol r b))))

/-- Result of running one table's suite (spec section 3): the table name,
one outcome per declared expectation in declaration order, and the overall
success. -/
structure SuiteResult where
  table_name : String
  results : List EvalOutcome
  overall_success : Bool
deriving DecidableEq

/-- Success flag of an outcome; an evaluator fault is not a success. -/
def outcomeSuccess : EvalOutcome → Bool
  | .ok r => r.success
  | .fault => false

/-- Modelled from the spec: the Suite Runner (section 4.3), absent from
src/ — every expectation is evaluated against the same batch snapshot, in
declared order, independently, with no short-circuit; the overall success
is the conjunction of the per-expectation successes. -/
def runSuite (table : String) (suite : List Expectation) (batch : Batch) :
    SuiteResult :=
  let results := suite.map (fun e => evaluate e batch)
  { table_name := table
    results := results
    overall_success := results.foldl (fun acc o => acc && outcomeSuccess o) true }

/-- Keep-first deduplication with an accumulator of already-seen values:
the semantics of pandas `drop_duplicates` on a column, which treats null as
an ordinary value (one null is kept when the column contains nulls). -/
def dedupAux : List Value → List Value → List Value
  | _, [] => []
  | seen, v :: rest =>
      if v ∈ seen then dedupAux seen rest
      else v :: dedupAux (v :: seen) rest

/-- Keep-first deduplication of a list of values (pandas
`drop_duplicates().tolist()`). -/
def dropDuplicates (xs : List Value) : List Value := dedupAux [] xs

/-- All values of one column of a batch, in row order. -/
def columnValues (batch : Batch) (c : String) : List Value :=
  batch.map (fun r => getCol r c)

/-- Reference-set extraction of script lines 69-70:
`validator.head(fetch_all=True)[column].drop_duplicates().tolist()` — the
distinct values of the column over the full batch, first occurrences kept,
nulls not filtered out. -/
def extractColumn (batch : Batch) (c : String) : List Value :=
  dropDuplicates (columnValues batch c)

/-- Script line 69: distinct `server_hash` values of the users batch. -/
def users_server_hashes (usersBatch : Batch) : List Value :=
  extractColumn usersBatch "server_hash"

/-- Script line 70: distinct `login_hash` values of the users batch. -/
def users_login_hashes (usersBatch : Batch) : List Value :=
  extractColumn usersBatch "login_hash"

/-- The users suite declared by the script (lines 38-67), in declaration
order. -/
def users_suite : List Expectation :=
  [ .notNull "login_hash"
  , .notNull "server_hash"
  , .rowCountBetween 1 none
  , .matchesRegex "login_hash" "^[A-F0-9]+$"
  , .notNull "country_hash"
  , .matchesRegex "country_hash" "^[A-F0-9]+$"
  , .notNull "currency"
  , .inSet "currency" [.str "AUD", .str "EUR", .str "NZD", .str "USD"]
  , .notNull "enable"
  , .inSet "enable" [.int 0, .int 1] ]

/-- The trades suite declared by the script (lines 83-136), in declaration
order; the two cross-table InSet expectations are parameterized by the
value sets extracted from the users batch. -/
def trades_suite (serverHashes loginHashes : List Value) : List Expectation :=
  [ .notNull "login_hash"
  , .notNull "symbol"
  , .notNull "contractsize"
  , .notNull "open_time"
  , .notNull "close_time"
  , .matchesRegex "symbol" "^[A-Za-z0-9]+$"
  , .between "volume" 0 none
  , .between "digits" 0 (some 10)
  , .inSet "cmd" [.int 0, .int 1]
  , .notNull "ticket_hash"
  , .matchesRegex "ticket_hash" "^[A-F0-9]+$"
  , .columnGreaterThan "close_time" "open_time"
  , .inSet "server_hash" serverHashes
  , .inSet "login_hash" loginHashes ]

/-- Result of one checkpoint run (spec section 3). -/
structure CheckpointResult where
  suite_results : List SuiteResult
  overall_success : Bool
deriving DecidableEq

/-- Modelled from the spec: a Checkpoint run (section 4.4), absent from
src/ — runs the table's suite against its batch and aggregates the suite
result. -/
def runCheckpoint (table : String) (suite : List Expectation) (batch : Batch) :
    CheckpointResult :=
  let sr := runSuite table suite batch
  { suite_results := [sr], overall_success := sr.overall_success }

/-- The whole pipeline of the script on given users and trades batches:
extract the users reference sets (lines 69-70), build both suites, then run
the users checkpoint and the trades checkpoint (lines 176-177). -/
def runPipeline (usersBatch tradesBatch : Batch) :
    CheckpointResult × CheckpointResult :=
  let sh := users_server_hashes usersBatch
  let lh := users_login_hashes usersBatch
  ( runCheckpoint "users" users_suite usersBatch
  , runCheckpoint "trades" (trades_suite sh lh) tradesBatch )

/-- The InSet parameters declared by a suite, in declaration order: for each
InSet expectation, its column and its allowed value set. -/
def inSetParams (es : List Expectation) : List (String × List Value) :=
  es.filterMap (fun e =>
    match e with
    | .inSet c S => some (c, S)
    | _ => none)

/-- A sample one-row users batch satisfying every users expectation. -/
def sampleUsersOk : Batch :=
  [[("login_hash", Value.str "AB12"), ("server_hash", Value.str "FF00"),
    ("country_hash", Value.str "10"), ("currency", Value.str "USD"),
    ("enable", Value.int 1)]]

/-- The same sample users batch with an invalid lowercase currency: the
extracted hash columns are unchanged but the currency InSet expectation
fails. -/
def sampleUsersBadCurrency : Batch :=
  [[("login_hash", Value.str "AB12"), ("server_hash", Value.str "FF00"),
    ("country_hash", Value.str "10"), ("currency", Value.str "usd"),
    ("enable", Value.int 1)]]

/-! Helper lemmas. -/

/-- Boolean membership agrees with propositional membership on value lists. -/
theorem value_contains_iff_mem (l : List Value) (v : Value) :
    l.contains v = true ↔ v ∈ l := by
  simp [List.contains, List.elem_iff]

/-- Membership in the keep-first deduplication with accumulator. -/
theorem mem_dedupAux (xs : List Value) :
    ∀ (seen : List Value) (v : Value),
      v ∈ dedupAux seen xs ↔ (v ∈ xs ∧ v ∉ seen) := by
  induction xs with
  | nil => intro seen v; simp [dedupAux]
  | cons x rest ih =>
    intro seen v
    by_cases hx : x ∈ seen
    · rw [show dedupAux seen (x :: rest) = dedupAux seen rest from if_pos hx]
      rw [ih seen v]
      constructor
      · rintro ⟨hv, hs⟩
        exact ⟨List.mem_cons_of_mem x hv, hs⟩
      · rintro ⟨hv, hs⟩
        rcases List.mem_cons.mp hv with hvx | hvr
        · exact absurd (hvx ▸ hx) hs
        · exact ⟨hvr, hs⟩
    · rw [show dedupAux seen (x :: rest) = x :: dedupAux (x :: seen) rest
          from if_neg hx]
      constructor
      · intro hmem
        rcases List.mem_cons.mp hmem with hvx | hvr
        · exact ⟨hvx ▸ List.mem_cons_self x rest, hvx ▸ hx⟩
        · rcases (ih (x :: seen) v).mp hvr with ⟨hv, hs⟩
          refine ⟨List.mem_cons_of_mem x hv, fun hvs => hs ?_⟩
          exact List.mem_cons_of_mem x hvs
      · rintro ⟨hv, hs⟩
        by_cases hvx : v = x
        · exact hvx ▸ List.mem_cons_self x _
        · rcases List.mem_cons.mp hv with h1 | h1
          · exact absurd h1 hvx
          · refine List.mem_cons_of_mem x ((ih (x :: seen) v).mpr ⟨h1, ?_⟩)
            intro hvs
            rcases List.mem_cons.mp hvs with h2 | h2
            · exact hvx h2
            · exact hs h2

/-- The keep-first deduplication never repeats an element. -/
theorem nodup_dedupAux (xs : List Value) :
    ∀ seen : List Value, (dedupAux seen xs).Nodup := by
  induction xs with
  | nil => intro seen; simp [dedupAux]
  | cons x rest ih =>
    intro seen
    by_cases hx : x ∈ seen
    · rw [show dedupAux seen (x :: rest) = dedupAux seen rest from if_pos hx]
      exact ih seen
    · rw [show dedupAux seen (x :: rest) = x :: dedupAux (x :: seen) rest
          from if_neg hx]
      refine List.nodup_cons.mpr ⟨?_, ih (x :: seen)⟩
      intro hmem
      rcases (mem_dedupAux rest (x :: seen) x).mp hmem with ⟨-, hns⟩
      exact hns (List.mem_cons_self x seen)

/-- Folding conjunction over outcomes computes the same as `List.all`. -/
theorem foldl_and_eq_all (f : EvalOutcome → Bool) (l : List EvalOutcome) :
    ∀ acc : Bool, l.foldl (fun a o => a && f o) acc = (acc && l.all f) := by
  induction l with
  | nil => intro acc; simp
  | cons x rest ih => intro acc; simp [List.foldl_cons, ih, Bool.and_assoc]

/-- Every successful evaluation result records success as the test that its
violation count is zero. -/
theorem ok_success_eq (e : Expectation) (batch : Batch)
    (r : ExpectationResult) (h : evaluate e batch = .ok r) :
    r.success = (r.violation_count == 0) := by
  cases e with
  | notNull c => cases h; rfl
  | rowCountBetween lo hi => cases h; rfl
  | matchesRegex c pat =>
      simp only [evaluate] at h
      cases hp : parseFullPattern pat with
      | some cls => rw [hp] at h; cases h; rfl
      | none => rw [hp] at h; cases h
  | inSet c allowed => cases h; rfl
  | between c lo hi => cases h; rfl
  | columnGreaterThan a b => cases h; rfl

/-! Claim theorems. -/

/-- C1: for an InSet(column, S) expectation, a value is a violation iff it
is not a member of S, membership being exact case-sensitive equality (so
"usd" is not a member of a set holding "USD"); when S does not contain null
(true of every literal value set in the script) a null value is a
violation; and evaluation scans the whole batch, counting exactly the
violating rows. -/
theorem C1_inSet_membership (c : String) (S : List Value) (batch : Batch)
    (hS : Value.null ∉ S) :
    (∀ v : Value, inSetViolation S v = true ↔ v ∉ S) ∧
    inSetViolation S Value.null = true ∧
    inSetViolation [Value.str "USD"] (Value.str "usd") = true ∧
    evaluate (.inSet c S) batch =
      .ok (mkResult batch.length
        (batch.countP (fun r => inSetViolation S (getCol r c)))) := by
  have hmem : ∀ v : Value, inSetViolation S v = true ↔ v ∉ S := by
    intro v
    simp [inSetViolation, List.contains, List.elem_iff]
  exact ⟨hmem, (hmem Value.null).mpr hS, by decide, rfl⟩

/-- Witness for C1 at the currency value set of the script. -/
theorem C1_inSet_membership_witness :
    Value.null ∉ ([Value.str "AUD", Value.str "EUR", Value.str "NZD",
      Value.str "USD"] : List Value) ∧
    inSetViolation [Value.str "AUD", Value.str "EUR", Value.str "NZD",
      Value.str "USD"] Value.null = true :=
  ⟨by decide,
   (C1_inSet_membership "currency"
     [Value.str "AUD", Value.str "EUR", Value.str "NZD", Value.str "USD"]
     [] (by decide)).2.1⟩

/-- C2: for a ColumnGreaterThan(A, B) expectation, a row is a violation iff
it is not the case that the value of A is a present number strictly greater
than the present number of B; equal values are violations (strict
inequality), a null on either side is a violation, and evaluation counts
exactly the violating rows of the batch. -/
theorem C2_columnGreaterThan (a b : String) (batch : Batch) (va vb : Value) :
    (pairGreaterViolation va vb = true ↔
      ¬ ∃ m n : Int, va.asInt = some m ∧ vb.asInt = some n ∧ n < m) ∧
    (∀ x : Int, pairGreaterViolation (.int x) (.int x) = true) ∧
    (va.isNull = true ∨ vb.isNull = true →
      pairGreaterViolation va vb = true) ∧
    evaluate (.columnGreaterThan a b) batch =
      .ok (mkResult batch.length
        (batch.countP (fun r =>
          pairGreaterViolation (getCol r a) (getCol r b)))) := by
  refine ⟨?_, ?_, ?_, rfl⟩
  · cases va <;> cases vb <;>
      simp [pairGreaterViolation, Value.asInt]
  · intro x
    simp [pairGreaterViolation, Value.asInt]
  · rintro (h | h) <;> cases va <;> cases vb <;>
      simp_all [pairGreaterViolation, Value.asInt, Value.isNull]

/-- Witness for C2 on the close_time and open_time columns: a row with
equal times is a violation. -/
theorem C2_columnGreaterThan_witness :
    pairGreaterViolation (Value.int 5) (Value.int 5) = true :=
  (C2_columnGreaterThan "close_time" "open_time" []
    (Value.int 5) (Value.int 5)).2.1 5

/-- C3 counterexample: on a users batch whose server_hash column contains a
null, the extracted reference set does contain null (`drop_duplicates`
keeps nulls), contradicting the claim that null is never in the set. -/
theorem C3_extract_counterexample :
    Value.null ∈ users_server_hashes [[("server_hash", Value.null)]] := by
  decide

/-- C3 (amended): reference-set extraction returns exactly the distinct
values of the column over the batch — every value occurring in the column
is in the result, nothing else is, and no element appears twice; null is
included exactly when the column contains a null, not filtered out. -/
theorem C3_extract_distinct (batch : Batch) (c : String) :
    (∀ v : Value, v ∈ extractColumn batch c ↔ v ∈ columnValues batch c) ∧
    (extractColumn batch c).Nodup := by
  constructor
  · intro v
    simpa using mem_dedupAux (columnValues batch c) [] v
  · exact nodup_dedupAux (columnValues batch c) []

/-- Witness for C3 (amended) at a two-row users batch with a duplicate. -/
theorem C3_extract_distinct_witness :
    (users_server_hashes
      [[("server_hash", Value.str "FF00")], [("server_hash", Value.str "FF00")]]).Nodup :=
  (C3_extract_distinct
    [[("server_hash", Value.str "FF00")], [("server_hash", Value.str "FF00")]]
    "server_hash").2

/-- C4: for a MatchesRegex(column, pattern) expectation with a well-formed
pattern, a non-null text value is a violation iff the whole value fails to
match the pattern (anchored full-match semantics), a null value is never a
violation, evaluation counts exactly the violating rows, and under the
script's alphanumeric pattern the value "USD,CHF" is a violation while
"USDCHF" is not. -/
theorem C4_matchesRegex (c : String) (pat : String) (cls : CharClass)
    (batch : Batch) (h : parseFullPattern pat = some cls) :
    evaluate (.matchesRegex c pat) batch =
      .ok (mkResult batch.length
        (batch.countP (fun r => regexViolation cls (getCol r c)))) ∧
    (∀ s : String,
      regexViolation cls (.str s) = true ↔ fullMatch cls s = false) ∧
    regexViolation cls Value.null = false ∧
    (∃ k : CharClass, parseFullPattern "^[A-Za-z0-9]+$" = some k ∧
      regexViolation k (.str "USD,CHF") = true ∧
      regexViolation k (.str "USDCHF") = false) := by
  refine ⟨?_, ?_, rfl, ?_⟩
  · simp [evaluate, h]
  · intro s
    simp [regexViolation, Value.asString]
  · exact ⟨[('A', 'Z'), ('a', 'z'), ('0', '9')], by decide, by decide,
      by decide⟩

/-- Witness for C4 at the script's alphanumeric symbol pattern. -/
theorem C4_matchesRegex_witness :
    parseFullPattern "^[A-Za-z0-9]+$" =
      some [('A', 'Z'), ('a', 'z'), ('0', '9')] ∧
    regexViolation [('A', 'Z'), ('a', 'z'), ('0', '9')] Value.null = false :=
  ⟨by decide,
   (C4_matchesRegex "symbol" "^[A-Za-z0-9]+$"
     [('A', 'Z'), ('a', 'z'), ('0', '9')] [] (by decide)).2.2.1⟩

/-- C5: a NotNull(column) expectation reports as violation count exactly
the number of rows whose value in the column is null, reports the batch's
row count as evaluated count, and succeeds iff the column has zero
nulls. -/
theorem C5_notNull (c : String) (batch : Batch) :
    ∃ r : ExpectationResult,
      evaluate (.notNull c) batch = .ok r ∧
      r.violation_count = batch.countP (fun row => (getCol row c).isNull) ∧
      r.evaluated_count = batch.length ∧
      (r.success = true ↔
        batch.countP (fun row => (getCol row c).isNull) = 0) := by
  refine ⟨_, rfl, rfl, rfl, ?_⟩
  simp [mkResult, notNullViolation]

/-- Witness for C5 at a two-row batch with one null login_hash. -/
theorem C5_notNull_witness :
    ∃ r : ExpectationResult,
      evaluate (.notNull "login_hash")
        [[("login_hash", Value.str "AB12")], [("login_hash", Value.null)]] =
        .ok r ∧
      r.violation_count =
        ([[("login_hash", Value.str "AB12")], [("login_hash", Value.null)]]
          : Batch).countP (fun row => (getCol row "login_hash").isNull) ∧
      r.evaluated_count =
        ([[("login_hash", Value.str "AB12")], [("login_hash", Value.null)]]
          : Batch).length ∧
      (r.success = true ↔
        ([[("login_hash", Value.str "AB12")], [("login_hash", Value.null)]]
          : Batch).countP (fun row => (getCol row "login_hash").isNull) = 0) :=
  C5_notNull "login_hash"
    [[("login_hash", Value.str "AB12")], [("login_hash", Value.null)]]

/-- C6: Between(column, lo, hi) bounds are inclusive — values equal to lo
or hi are not violations, values strictly below lo or strictly above a
bounded hi are violations, an unbounded maximum imposes no upper limit,
null is not a violation under this rule, and on the digits rule a value of
10 passes while 11 fails. -/
theorem C6_between_inclusive (lo hi n : Int) (hle : lo ≤ hi) :
    betweenViolation lo (some hi) (.int lo) = false ∧
    betweenViolation lo (some hi) (.int hi) = false ∧
    (n < lo → betweenViolation lo (some hi) (.int n) = true) ∧
    (hi < n → betweenViolation lo (some hi) (.int n) = true) ∧
    betweenViolation lo none (.int n) = decide (n < lo) ∧
    betweenViolation lo (some hi) Value.null = false ∧
    evaluate (.between "digits" 0 (some 10)) [[("digits", Value.int 10)]] =
      .ok (mkResult 1 0) ∧
    evaluate (.between "digits" 0 (some 10)) [[("digits", Value.int 11)]] =
      .ok (mkResult 1 1) := by
  refine ⟨?_, ?_, ?_, ?_, ?_, rfl, by decide, by decide⟩
  · simp [betweenViolation, Value.asInt]
    omega
  · simp [betweenViolation, Value.asInt]
    omega
  · intro h
    simp [betweenViolation, Value.asInt]
    omega
  · intro h
    simp [betweenViolation, Value.asInt]
    omega
  · simp [betweenViolation, Value.asInt]

/-- Witness for C6 at the digits bounds 0 and 10. -/
theorem C6_between_inclusive_witness :
    (0 : Int) ≤ 10 ∧
    betweenViolation 0 (some 10) (Value.int 10) = false :=
  ⟨by decide, (C6_between_inclusive 0 10 5 (by decide)).2.1⟩

/-- C7: running a suite evaluates every declared expectation against the
same batch, in declaration order, with no short-circuit: the result list
has one outcome per declared expectation, the outcome at every position is
exactly the evaluation of the expectation declared there, and an
expectation whose parameter is malformed yields a fault at its own
position only — every other position still carries its own evaluation. -/
theorem C7_suite_runner (table : String) (suite : List Expectation)
    (batch : Batch) :
    (runSuite table suite batch).results.length = suite.length ∧
    (∀ i : Nat, (runSuite table suite batch).results[i]? =
      (suite[i]?).map (fun e => evaluate e batch)) ∧
    (∀ i : Nat, ∀ e : Expectation, suite[i]? = some e →
      evaluate e batch = .fault →
      (runSuite table suite batch).results[i]? = some .fault ∧
      ∀ j : Nat, ∀ e2 : Expectation, suite[j]? = some e2 →
        (runSuite table suite batch).results[j]? =
          some (evaluate e2 batch)) := by
  refine ⟨by simp [runSuite], ?_, ?_⟩
  · intro i
    simp [runSuite, List.getElem?_map]
  · intro i e hi hf
    refine ⟨?_, ?_⟩
    · simp [runSuite, List.getElem?_map, hi, hf]
    · intro j e2 hj
      simp [runSuite, List.getElem?_map, hj]

/-- Witness for C7 on a three-expectation suite whose middle regex
parameter is malformed: the fault is isolated to position 1. -/
theorem C7_suite_runner_witness :
    (runSuite "t"
      [Expectation.notNull "a", Expectation.matchesRegex "a" "(",
       Expectation.notNull "b"] []).results[1]? =
      some EvalOutcome.fault :=
  ((C7_suite_runner "t"
      [Expectation.notNull "a", Expectation.matchesRegex "a" "(",
       Expectation.notNull "b"] []).2.2 1
    (Expectation.matchesRegex "a" "(") (by decide) (by decide)).1

/-- C8: the pipeline is deterministic — running it twice against unchanged
users and trades batches yields identical checkpoint results, including
identical extracted reference sets. -/
theorem C8_deterministic (u1 u2 t1 t2 : Batch) (hu : u1 = u2)
    (ht : t1 = t2) :
    runPipeline u1 t1 = runPipeline u2 t2 ∧
    users_server_hashes u1 = users_server_hashes u2 ∧
    users_login_hashes u1 = users_login_hashes u2 := by
  subst hu
  subst ht
  exact ⟨rfl, rfl, rfl⟩

/-- Witness for C8 at a concrete pair of batches. -/
theorem C8_deterministic_witness :
    runPipeline sampleUsersOk [] = runPipeline sampleUsersOk [] :=
  (C8_deterministic sampleUsersOk sampleUsersOk [] [] rfl rfl).1

/-- C9: every evaluation result has success true iff its violation count is
zero, and a suite result's overall success is the conjunction of the
success flags of all its expectation outcomes. -/
theorem C9_success_aggregation (e : Expectation) (batch : Batch)
    (table : String) (suite : List Expectation) :
    (∀ r : ExpectationResult, evaluate e batch = .ok r →
      (r.success = true ↔ r.violation_count = 0)) ∧
    (runSuite table suite batch).overall_success =
      (runSuite table suite batch).results.all outcomeSuccess := by
  constructor
  · intro r h
    rw [ok_success_eq e batch r h]
    simp
  · simp [runSuite, foldl_and_eq_all]

/-- Witness for C9 on the users suite and the valid sample batch. -/
theorem C9_success_aggregation_witness :
    (runSuite "users" users_suite sampleUsersOk).overall_success =
      (runSuite "users" users_suite sampleUsersOk).results.all
        outcomeSuccess :=
  (C9_success_aggregation (.notNull "login_hash") sampleUsersOk
    "users" users_suite).2

/-- C10: the cross-table InSet parameters of the trades suite are exactly
the value sets extracted from the users batch at suite-construction time;
two users batches with the same extracted sets produce the same trades
suite regardless of how the users expectations fare; and the pipeline's
trades checkpoint runs exactly that suite. -/
theorem C10_cross_table_params (u u2 t : Batch)
    (hsh : users_server_hashes u = users_server_hashes u2)
    (hlh : users_login_hashes u = users_login_hashes u2) :
    inSetParams (trades_suite (users_server_hashes u)
        (users_login_hashes u)) =
      [ ("cmd", [Value.int 0, Value.int 1])
      , ("server_hash", users_server_hashes u)
      , ("login_hash", users_login_hashes u) ] ∧
    trades_suite (users_server_hashes u) (users_login_hashes u) =
      trades_suite (users_server_hashes u2) (users_login_hashes u2) ∧
    (runPipeline u t).2 =
      runCheckpoint "trades"
        (trades_suite (users_server_hashes u) (users_login_hashes u)) t := by
  refine ⟨rfl, ?_, rfl⟩
  rw [hsh, hlh]

/-- Witness for C10: two users batches that differ only in currency
validity — the users suite succeeds on one and fails on the other — yield
the same trades suite. -/
theorem C10_cross_table_params_witness :
    (runSuite "users" users_suite sampleUsersOk).overall_success = true ∧
    (runSuite "users" users_suite sampleUsersBadCurrency).overall_success =
      false ∧
    trades_suite (users_server_hashes sampleUsersOk)
        (users_login_hashes sampleUsersOk) =
      trades_suite (users_server_hashes sampleUsersBadCurrency)
        (users_login_hashes sampleUsersBadCurrency) :=
  ⟨by decide, by decide,
   (C10_cross_table_params sampleUsersOk sampleUsersBadCurrency []
     (by decide) (by decide)).2.1⟩

end TechTestQA
